import Mathlib

/-!
Shallow embedding of `src/Common/ThreadProfileEvents.cpp` (perf-event
counter collection attributed to a bounded region of work on one thread).

The C++ code is modelled as pure Lean functions over an explicit
per-thread state (`ThreadState`), a process-wide state for the two
one-time diagnostic flags (`ProcState`), and an environment `Env` that
fixes the outcome of every OS call (reading
`/proc/sys/kernel/perf_event_paranoid`, `perf_event_open`, `read`,
`ioctl`, `close`).  Every observable action of the code — OS calls, log
lines, and `ProfileEvents::Counters::increment` calls (the metric sink) —
is recorded in an effect trace, in program order.
-/

namespace ThreadProfileEvents

/-- `perf_type_id` values used by the catalog: `PERF_TYPE_HARDWARE` and
`PERF_TYPE_SOFTWARE`. -/
inductive PerfTypeId where
  | hardware
  | software
deriving DecidableEq, Repr

/-- The `ProfileEvents::Event` identifiers the subsystem reports under:
one per catalog entry plus the two derived IPC metrics
(`PERF_CUSTOM_INSTRUCTIONS_PER_CPU_CYCLE_SCALED` is `ipcScaled`,
`PERF_CUSTOM_INSTRUCTIONS_PER_CPU_CYCLE` is `ipcUnscaled`). -/
inductive MetricId where
  | PERF_COUNT_HW_CPU_CYCLES
  | PERF_COUNT_HW_INSTRUCTIONS
  | PERF_COUNT_HW_CACHE_REFERENCES
  | PERF_COUNT_HW_CACHE_MISSES
  | PERF_COUNT_HW_BRANCH_INSTRUCTIONS
  | PERF_COUNT_HW_BRANCH_MISSES
  | PERF_COUNT_HW_BUS_CYCLES
  | PERF_COUNT_HW_STALLED_CYCLES_FRONTEND
  | PERF_COUNT_HW_STALLED_CYCLES_BACKEND
  | PERF_COUNT_HW_REF_CPU_CYCLES
  | PERF_COUNT_SW_TASK_CLOCK
  | PERF_COUNT_SW_PAGE_FAULTS
  | PERF_COUNT_SW_CONTEXT_SWITCHES
  | PERF_COUNT_SW_CPU_MIGRATIONS
  | PERF_COUNT_SW_PAGE_FAULTS_MIN
  | PERF_COUNT_SW_PAGE_FAULTS_MAJ
  | PERF_COUNT_SW_ALIGNMENT_FAULTS
  | PERF_COUNT_SW_EMULATION_FAULTS
  | ipcScaled
  | ipcUnscaled
deriving DecidableEq, Repr

/-- `PerfEventInfo`: one catalog entry `{event_type, event_config,
profile_event}`.  Event configs are the small nonnegative
`PERF_COUNT_*` enum values, kept as `Nat`. -/
structure PerfEventInfo where
  event_type : PerfTypeId
  event_config : Nat
  profile_event : MetricId
deriving DecidableEq, Repr

/-- `PerfEventsCounters::raw_events_info`: the fixed catalog, in source
order (10 hardware events, then 8 software events; the commented-out
`PERF_COUNT_SW_CPU_CLOCK` and `PERF_COUNT_SW_DUMMY` are absent).
Hardware configs: CPU_CYCLES=0, INSTRUCTIONS=1, CACHE_REFERENCES=2,
CACHE_MISSES=3, BRANCH_INSTRUCTIONS=4, BRANCH_MISSES=5, BUS_CYCLES=6,
STALLED_CYCLES_FRONTEND=7, STALLED_CYCLES_BACKEND=8, REF_CPU_CYCLES=9.
Software configs: TASK_CLOCK=1, PAGE_FAULTS=2, CONTEXT_SWITCHES=3,
CPU_MIGRATIONS=4, PAGE_FAULTS_MIN=5, PAGE_FAULTS_MAJ=6,
ALIGNMENT_FAULTS=7, EMULATION_FAULTS=8. -/
def raw_events_info : List PerfEventInfo :=
  [ ⟨.hardware, 0, .PERF_COUNT_HW_CPU_CYCLES⟩,
    ⟨.hardware, 1, .PERF_COUNT_HW_INSTRUCTIONS⟩,
    ⟨.hardware, 2, .PERF_COUNT_HW_CACHE_REFERENCES⟩,
    ⟨.hardware, 3, .PERF_COUNT_HW_CACHE_MISSES⟩,
    ⟨.hardware, 4, .PERF_COUNT_HW_BRANCH_INSTRUCTIONS⟩,
    ⟨.hardware, 5, .PERF_COUNT_HW_BRANCH_MISSES⟩,
    ⟨.hardware, 6, .PERF_COUNT_HW_BUS_CYCLES⟩,
    ⟨.hardware, 7, .PERF_COUNT_HW_STALLED_CYCLES_FRONTEND⟩,
    ⟨.hardware, 8, .PERF_COUNT_HW_STALLED_CYCLES_BACKEND⟩,
    ⟨.hardware, 9, .PERF_COUNT_HW_REF_CPU_CYCLES⟩,
    ⟨.software, 1, .PERF_COUNT_SW_TASK_CLOCK⟩,
    ⟨.software, 2, .PERF_COUNT_SW_PAGE_FAULTS⟩,
    ⟨.software, 3, .PERF_COUNT_SW_CONTEXT_SWITCHES⟩,
    ⟨.software, 4, .PERF_COUNT_SW_CPU_MIGRATIONS⟩,
    ⟨.software, 5, .PERF_COUNT_SW_PAGE_FAULTS_MIN⟩,
    ⟨.software, 6, .PERF_COUNT_SW_PAGE_FAULTS_MAJ⟩,
    ⟨.software, 7, .PERF_COUNT_SW_ALIGNMENT_FAULTS⟩,
    ⟨.software, 8, .PERF_COUNT_SW_EMULATION_FAULTS⟩ ]

/-- Observable actions of the code, in program order: OS calls on the
perf subsystem, log emissions, and `increment` calls on the metric sink
(`ProfileEvents::Counters`). -/
inductive Effect where
  | readConfig
  | checkPrivilege
  | openHandle (idx : Nat) (excludeKernel : Bool) (fd : Int)
  | enable (fd : Int)
  | readValue (fd : Int)
  | disable (fd : Int)
  | reset (fd : Int)
  | close (fd : Int)
  | increment (metric : MetricId) (value : Nat)
  | logInfo (msg : String)
  | logWarning (msg : String)
deriving DecidableEq, Repr

def unavailMsg : String := "Perf events are unsupported"
def permMsg : String := "Not enough permissions to record perf events"
def unsupportedEventMsg : String := "Perf event is unsupported"
def onlyOneMsg : String := "Only one instance of PerfEventsCounters can be used on the thread"
def noInfoMsg : String := "Cannot find perf event info"
def readFailMsg : String := "Cannot read event value from file descriptor"
def disableFailMsg : String := "Cannot disable perf event with file descriptor"
def resetFailMsg : String := "Cannot reset perf event with file descriptor"
def closeFailMsg : String := "Cannot close perf event file descriptor"

/-- Outcomes of every OS interaction, fixed up front.  `paranoid = none`
models `getPerfEventParanoid` failing (missing or unreadable
`/proc/sys/kernel/perf_event_paranoid`); `some p` models a successful
read of the value `p`.  `openResult ek i` is the file descriptor
`perf_event_open` returns for catalog index `i` with `exclude_kernel =
ek` (`-1` is failure).  `readResult fd` is the 8-byte counter value a
`read fd` yields (`none` models a short or failed read).  The `ioctl`
and `close` outcome predicates hold when the call succeeds (returns 0). -/
structure Env where
  paranoid : Option Int
  hasCapSysAdmin : Bool
  openResult : Bool → Nat → Int
  readResult : Int → Option Nat
  ioctlDisableOk : Int → Bool
  ioctlResetOk : Int → Bool
  closeOk : Int → Bool

/-- The two process-wide one-time diagnostic flags
(`perf_unavailability_logged` and
`particular_events_unavailability_logged`), shared by all threads. -/
structure ProcState where
  unavailLogged : Bool
  particularLogged : Bool
deriving DecidableEq, Repr

/-- Per-thread state: `thread_events_descriptors_opened`, the
`PerfDescriptorsHolder` descriptor array (`-1` is the invalid sentinel),
the `current_thread_counters` back-reference (sessions are identified by
`Nat` ids; `none` is the null pointer), and each session's
`raw_event_values` array, indexed by session id. -/
structure ThreadState where
  opened : Bool
  descriptors : List Int
  current : Option Nat
  sessions : Nat → List Nat

/-- Pointwise update of one session's `raw_event_values` array. -/
def updateSessions (f : Nat → List Nat) (sid : Nat) (vals : List Nat) : Nat → List Nat :=
  fun k => if k = sid then vals else f k

/-- `PerfEventsCounters::getRawValue`: linear scan of the catalog for
the first entry matching `(event_type, event_config)`, returning the
session value at that index; falls off the end to a logged warning and
`0`.  The value array is walked in step with the catalog. -/
def getRawValue : List PerfEventInfo → List Nat → PerfTypeId → Nat → Nat × List Effect
  | [], _, _, _ => (0, [Effect.logWarning noInfoMsg])
  | e :: es, vs, ty, cfg =>
    if e.event_type = ty ∧ e.event_config = cfg then (vs.headD 0, [])
    else getRawValue es vs.tail ty cfg

/-- Sum of all `increment` values forwarded to the sink for metric `m`
in a trace: the total delta the sink observes for `m`. -/
def incValue (m : MetricId) : Effect → Nat
  | .increment m' v => if m' = m then v else 0
  | _ => 0

def sinkDelta (m : MetricId) (effs : List Effect) : Nat :=
  (effs.map (incValue m)).sum

/-- The ordered list of `(metric, value)` increments a trace forwards to
the sink. -/
def sinkIncrements (effs : List Effect) : List (MetricId × Nat) :=
  effs.filterMap fun e =>
    match e with
    | .increment m v => some (m, v)
    | _ => none

def isOpenEffect : Effect → Bool
  | .openHandle _ _ _ => true
  | _ => false

def countOpens (effs : List Effect) : Nat :=
  (effs.filter isOpenEffect).length

def isCloseEffect : Effect → Bool
  | .close _ => true
  | _ => false

def countCloses (effs : List Effect) : Nat :=
  (effs.filter isCloseEffect).length

/-- Number of valid (non `-1`) descriptors in a holder array. -/
def countValid : List Int → Nat
  | [] => 0
  | fd :: ds => (if fd = -1 then 0 else 1) + countValid ds

/-- The open loop inside `initializeThreadLocalEvents` (lines 162-174):
for every catalog entry, `perfEventOpenDisabled` is called with the
precomputed `exclude_kernel` bit `ek` and the resulting descriptor is
stored; a failed open (`fd = -1`) additionally emits the one-time
per-event diagnostic when this thread won the `log_unsupported_event`
compare-and-set.  Returns the new descriptor array and the trace.
(The loop also zeroes `counters.raw_event_values[i]`; the caller installs
the zeroed array.) -/
def openLoop (env : Env) (ek : Bool) (logU : Bool) : List PerfEventInfo → Nat → List Int × List Effect
  | [], _ => ([], [])
  | _ :: es, i =>
    let fd := env.openResult ek i
    let r := openLoop env ek logU es (i + 1)
    (fd :: r.1,
      (Effect.openHandle i ek fd ::
        (if fd = -1 ∧ logU = true then [Effect.logInfo unsupportedEventMsg] else [])) ++ r.2)

/-- Result of `initializeThreadLocalEvents`: success flag, updated
process flags, updated thread state, effect trace. -/
structure InitTLResult where
  ok : Bool
  proc : ProcState
  thread : ThreadState
  trace : List Effect

/-- `PerfEventsCounters::initializeThreadLocalEvents` (lines 136-178).
Early-returns success if this thread already opened its descriptors.
Otherwise reads `perf_event_paranoid` (failure: one-time "unsupported"
log via compare-and-set on `perf_unavailability_logged`, return false),
checks `CAP_SYS_ADMIN`, refuses when `paranoid >= 3` without the
capability (one-time "not enough permissions" log via the same flag),
and otherwise opens one disabled counter per catalog entry with
`exclude_kernel = (paranoid >= 2 && !cap)`, zeroes the session's value
array, marks the thread opened and returns true. -/
def initThreadLocalEvents (cat : List PerfEventInfo) (env : Env) (ps : ProcState)
    (ts : ThreadState) (sid : Nat) : InitTLResult :=
  if ts.opened then ⟨true, ps, ts, []⟩
  else
    match env.paranoid with
    | none =>
      if ps.unavailLogged then ⟨false, ps, ts, [.readConfig]⟩
      else ⟨false, ⟨true, ps.particularLogged⟩, ts, [.readConfig, .logInfo unavailMsg]⟩
    | some p =>
      if 3 ≤ p ∧ env.hasCapSysAdmin = false then
        if ps.unavailLogged then ⟨false, ps, ts, [.readConfig, .checkPrivilege]⟩
        else ⟨false, ⟨true, ps.particularLogged⟩, ts,
          [.readConfig, .checkPrivilege, .logInfo permMsg]⟩
      else
        let logU : Bool := !ps.particularLogged
        let ek : Bool := decide (2 ≤ p) && !env.hasCapSysAdmin
        let r := openLoop env ek logU cat 0
        ⟨true, ⟨ps.unavailLogged, true⟩,
          ⟨true, r.1, ts.current, updateSessions ts.sessions sid (List.replicate cat.length 0)⟩,
          .readConfig :: .checkPrivilege :: r.2⟩

/-- The enable loop inside `initializeProfileEvents` (lines 196-200):
`PERF_EVENT_IOC_ENABLE` on every valid descriptor (the ioctl result is
not checked by the code). -/
def enableLoop : List Int → List Effect
  | [] => []
  | fd :: ds => (if fd = -1 then [] else [Effect.enable fd]) ++ enableLoop ds

/-- Result of `initializeProfileEvents`: updated process flags, updated
thread state, effect trace. -/
structure InitResult where
  proc : ProcState
  thread : ThreadState
  trace : List Effect

/-- `PerfEventsCounters::initializeProfileEvents` (lines 180-203).
No-op if this session is already current on the thread; a logged
warning (and nothing else) if a different session is current; otherwise
runs `initializeThreadLocalEvents` (returning its failure unchanged),
zeroes the session's value array, enables every valid descriptor and
installs the session as `current_thread_counters`. -/
def initProfileEvents (cat : List PerfEventInfo) (env : Env) (ps : ProcState)
    (ts : ThreadState) (sid : Nat) : InitResult :=
  match ts.current with
  | some s =>
    if s = sid then ⟨ps, ts, []⟩
    else ⟨ps, ts, [.logWarning onlyOneMsg]⟩
  | none =>
    let r := initThreadLocalEvents cat env ps ts sid
    if r.ok = false then ⟨r.proc, r.thread, r.trace⟩
    else
      ⟨r.proc,
        ⟨r.thread.opened, r.thread.descriptors, some sid,
          updateSessions r.thread.sessions sid (List.replicate cat.length 0)⟩,
        r.trace ++ enableLoop r.thread.descriptors⟩

/-- The read loop inside `finalizeProfileEvents` (lines 215-227): for
every valid descriptor, `read` the 8-byte counter into the session's
value slot; a short read logs a warning and stores `0`; invalid slots
keep their previous value. -/
def readLoop (env : Env) : List Int → List Nat → List Nat × List Effect
  | [], _ => ([], [])
  | _ :: _, [] => ([], [])
  | fd :: ds, v :: vs =>
    let r := readLoop env ds vs
    if fd = -1 then (v :: r.1, r.2)
    else
      match env.readResult fd with
      | some w => (w :: r.1, Effect.readValue fd :: r.2)
      | none => (0 :: r.1, Effect.readValue fd :: Effect.logWarning readFailMsg :: r.2)

/-- The processing loop inside `finalizeProfileEvents` (lines 230-242):
for every valid descriptor, forward the read value to the sink under
the catalog entry's metric, then `PERF_EVENT_IOC_DISABLE` and
`PERF_EVENT_IOC_RESET` (each failure logged, never aborting the
loop). -/
def processLoop (env : Env) : List Int → List Nat → List PerfEventInfo → List Effect
  | fd :: ds, v :: vs, e :: es =>
    let rest := processLoop env ds vs es
    if fd = -1 then rest
    else
      Effect.increment e.profile_event v ::
        ((Effect.disable fd :: (if env.ioctlDisableOk fd then [] else [Effect.logWarning disableFailMsg]))
          ++ (Effect.reset fd :: (if env.ioctlResetOk fd then [] else [Effect.logWarning resetFailMsg]))
          ++ rest)
  | _, _, _ => []

/-- Result of `finalizeProfileEvents`: updated thread state and trace
(the function touches no process-wide flag). -/
structure FinResult where
  thread : ThreadState
  trace : List Effect

/-- `PerfEventsCounters::finalizeProfileEvents` (lines 205-259).
No-op unless this session is current on the thread and the thread's
descriptors were opened.  Otherwise: read loop, processing loop, then
the two derived IPC metrics — `instructions / cpu_cycles` guarded by
`cpu_cycles != 0` and `instructions / ref_cpu_cycles` guarded by
`ref_cpu_cycles != 0` (the `instructions` lookup runs only when the
guard passes, matching the conditional expression) — are forwarded to
the sink, and `current_thread_counters` is cleared. -/
def finalizeProfileEvents (cat : List PerfEventInfo) (env : Env)
    (ts : ThreadState) (sid : Nat) : FinResult :=
  if ts.current = some sid then
    if ts.opened then
      let rl := readLoop env ts.descriptors (ts.sessions sid)
      let vals := rl.1
      let pl := processLoop env ts.descriptors vals cat
      let g1 := getRawValue cat vals .hardware 0
      let g2 := getRawValue cat vals .hardware 9
      let scaled :=
        if g1.1 ≠ 0 then
          let gi := getRawValue cat vals .hardware 1
          (gi.1 / g1.1, gi.2)
        else (0, ([] : List Effect))
      let unscaled :=
        if g2.1 ≠ 0 then
          let gi := getRawValue cat vals .hardware 1
          (gi.1 / g2.1, gi.2)
        else (0, ([] : List Effect))
      ⟨⟨ts.opened, ts.descriptors, none, updateSessions ts.sessions sid vals⟩,
        rl.2 ++ pl ++ g1.2 ++ g2.2 ++ scaled.2 ++ unscaled.2
          ++ [.increment .ipcScaled scaled.1, .increment .ipcUnscaled unscaled.1]⟩
    else ⟨ts, []⟩
  else ⟨ts, []⟩

/-- `PerfDescriptorsHolder::~PerfDescriptorsHolder` (lines 272-287): for
every still-valid descriptor, best-effort `PERF_EVENT_IOC_DISABLE` then
`close` (each failure logged as a warning), then the slot is reset to
`-1`.  Returns the new descriptor array and the trace. -/
def releaseHolder (env : Env) : List Int → List Int × List Effect
  | [] => ([], [])
  | fd :: ds =>
    let r := releaseHolder env ds
    if fd = -1 then (fd :: r.1, r.2)
    else
      ((-1 : Int) :: r.1,
        (Effect.disable fd :: (if env.ioctlDisableOk fd then [] else [Effect.logWarning disableFailMsg]))
          ++ (Effect.close fd :: (if env.closeOk fd then [] else [Effect.logWarning closeFailMsg]))
          ++ r.2)

/-- `PerfDescriptorsHolder::PerfDescriptorsHolder` plus the initial
values of the thread-locals: all descriptors `-1`, not opened, no
current session, all session arrays zero. -/
def initialThread (cat : List PerfEventInfo) : ThreadState :=
  ⟨false, List.replicate cat.length (-1), none, fun _ => List.replicate cat.length 0⟩

def initialProc : ProcState := ⟨false, false⟩

/-- One caller-visible operation on a thread, carrying the OS
environment in force during the call. -/
inductive Op where
  | opInit (sid : Nat) (env : Env)
  | opFin (sid : Nat) (env : Env)

def stepOp (cat : List PerfEventInfo) : ProcState × ThreadState → Op → ProcState × ThreadState
  | (ps, ts), .opInit sid env =>
    let r := initProfileEvents cat env ps ts sid
    (r.proc, r.thread)
  | (ps, ts), .opFin sid env =>
    (ps, (finalizeProfileEvents cat env ts sid).thread)

/-- Run a sequence of operations on one thread from the initial state. -/
def runOps (cat : List PerfEventInfo) (ops : List Op) : ProcState × ThreadState :=
  ops.foldl (stepOp cat) (initialProc, initialThread cat)

/-- `T` fresh threads, serialized in some order, each running its first
`initializeThreadLocalEvents` against the shared process flags (the only
cross-thread interaction is the atomic compare-and-set on those flags,
so any interleaving of the atomic steps is one such serialization).
Returns the final process flags and the total number of "unsupported"
diagnostic lines emitted across all threads. -/
def countUnavailLogs (effs : List Effect) : Nat :=
  (effs.filter fun e => decide (e = Effect.logInfo unavailMsg)).length

def runRaceFresh (cat : List PerfEventInfo) (env : Env) (fresh : ThreadState) :
    Nat → ProcState → ProcState × Nat
  | 0, ps => (ps, 0)
  | t + 1, ps =>
    let r := initThreadLocalEvents cat env ps fresh 0
    let rest := runRaceFresh cat env fresh t r.proc
    (rest.1, countUnavailLogs r.trace + rest.2)

/-- The invariant of claim C10: a non-null `current_thread_counters`
implies this thread's descriptors were opened. -/
def invOpened (ts : ThreadState) : Prop := ts.current.isSome → ts.opened = true

/-- Fallback entry for out-of-range catalog indexing in statements. -/
def dummyEvent : PerfEventInfo := ⟨.hardware, 0, .PERF_COUNT_HW_CPU_CYCLES⟩

/-! ### Concrete fixtures used by witnesses and counterexamples -/

/-- An environment where everything works: `perf_event_paranoid = 1`,
`CAP_SYS_ADMIN` held, every open succeeds, every read returns 0. -/
def envA : Env :=
  ⟨some 1, true, fun _ i => 10 + i, fun _ => some 0,
   fun _ => true, fun _ => true, fun _ => true⟩

/-- An environment where `/proc/sys/kernel/perf_event_paranoid` is
unreadable. -/
def envFail : Env :=
  ⟨none, false, fun _ _ => -1, fun _ => none,
   fun _ => true, fun _ => true, fun _ => true⟩

/-- An environment with `perf_event_paranoid = 3` and no capability. -/
def envP3 : Env :=
  ⟨some 3, false, fun _ i => 10 + i, fun _ => some 0,
   fun _ => true, fun _ => true, fun _ => true⟩

/-- A thread already hosting session 1. -/
def tsBusy : ThreadState := ⟨true, [5], some 1, fun _ => [0]⟩

/-- A thread whose descriptors were already opened, with no current
session. -/
def tsOpened : ThreadState := ⟨true, [3, 4], none, fun _ => [0, 0]⟩

/-- The two-entry catalog of the spec's no-op-region scenario:
cpu_cycles and instructions. -/
def cat2 : List PerfEventInfo :=
  [ ⟨.hardware, 0, .PERF_COUNT_HW_CPU_CYCLES⟩,
    ⟨.hardware, 1, .PERF_COUNT_HW_INSTRUCTIONS⟩ ]

/-- Synthetic handles 3 and 4 pre-seeded so that reading them yields
1000 (cpu_cycles) and 500 (instructions). -/
def env7 : Env :=
  ⟨some 1, false, fun _ i => 3 + i,
   fun fd => if fd = 3 then some 1000 else if fd = 4 then some 500 else none,
   fun _ => true, fun _ => true, fun _ => true⟩

/-- A thread with the two synthetic handles already opened. -/
def ts7 : ThreadState := ⟨true, [3, 4], none, fun _ => [7, 7]⟩

/-- A thread hosting session 0 with the two synthetic handles of
`env7` opened. -/
def ts3 : ThreadState := ⟨true, [3, 4], some 0, fun _ => [0, 0]⟩

/-! ### Shared lemmas -/

theorem sinkDelta_nil (m : MetricId) : sinkDelta m [] = 0 := rfl

theorem sinkDelta_append (m : MetricId) (xs ys : List Effect) :
    sinkDelta m (xs ++ ys) = sinkDelta m xs + sinkDelta m ys := by
  simp [sinkDelta]

theorem sinkDelta_cons (m : MetricId) (e : Effect) (xs : List Effect) :
    sinkDelta m (e :: xs) = incValue m e + sinkDelta m xs := by
  simp [sinkDelta]

theorem sinkIncrements_append (xs ys : List Effect) :
    sinkIncrements (xs ++ ys) = sinkIncrements xs ++ sinkIncrements ys := by
  simp [sinkIncrements]

theorem headD_eq_getD (vs : List Nat) : vs.headD 0 = vs.getD 0 0 := by
  cases vs <;> rfl

theorem tail_getD (vs : List Nat) (j : Nat) : vs.tail.getD j 0 = vs.getD (j + 1) 0 := by
  cases vs <;> rfl

/-- `getRawValue` emits no sink increment (its trace is at most one
warning line). -/
theorem getRawValue_sinkDelta (m : MetricId) :
    ∀ (cat : List PerfEventInfo) (vs : List Nat) (ty : PerfTypeId) (cfg : Nat),
      sinkDelta m (getRawValue cat vs ty cfg).2 = 0 := by
  intro cat
  induction cat with
  | nil => intro vs ty cfg; rfl
  | cons e es ih =>
    intro vs ty cfg
    unfold getRawValue
    by_cases h : e.event_type = ty ∧ e.event_config = cfg
    · simp [h, sinkDelta_nil]
    · simpa [h] using ih vs.tail ty cfg

/-- The read loop emits no sink increment. -/
theorem readLoop_sinkDelta (m : MetricId) (env : Env) :
    ∀ (ds : List Int) (vs : List Nat), sinkDelta m (readLoop env ds vs).2 = 0 := by
  intro ds
  induction ds with
  | nil => intro vs; rfl
  | cons fd ds ih =>
    intro vs
    cases vs with
    | nil => rfl
    | cons v vs =>
      unfold readLoop
      by_cases h : fd = -1
      · simpa [h] using ih vs
      · cases hr : env.readResult fd <;>
          simp [h, hr, sinkDelta_cons, incValue, ih vs]

/-- The processing loop's only increments carry catalog metrics, so a
metric no catalog entry reports under sees delta 0. -/
theorem processLoop_sinkDelta_of_not_reported (m : MetricId) (env : Env) :
    ∀ (cat : List PerfEventInfo) (ds : List Int) (vs : List Nat),
      (∀ e ∈ cat, e.profile_event ≠ m) →
      sinkDelta m (processLoop env ds vs cat) = 0 := by
  intro cat
  induction cat with
  | nil => intro ds vs _; cases ds <;> cases vs <;> rfl
  | cons e es ih =>
    intro ds vs hm
    cases ds with
    | nil => rfl
    | cons fd ds =>
      cases vs with
      | nil => rfl
      | cons v vs =>
        have hme : e.profile_event ≠ m := hm e (List.mem_cons_self e es)
        have hrest := ih ds vs (fun x hx => hm x (List.mem_cons_of_mem e hx))
        unfold processLoop
        by_cases h : fd = -1
        · simpa [h] using hrest
        · cases h1 : env.ioctlDisableOk fd <;> cases h2 : env.ioctlResetOk fd <;>
            simp [h, h1, h2, sinkDelta_cons, sinkDelta_append, incValue, hme, hrest]

/-! ### Claim theorems -/

/-- C1: when the session is not the one currently active on the thread
(in particular when collection never started because `initialize`
failed or was never called), `finalize` leaves the thread state
untouched and its trace is empty, so the delta every metric's sink
value receives is zero — every reported value is (implicitly) zero. -/
theorem finalize_no_session_reports_zero (cat : List PerfEventInfo) (env : Env)
    (ts : ThreadState) (sid : Nat) (h : ts.current ≠ some sid) :
    finalizeProfileEvents cat env ts sid = ⟨ts, []⟩ ∧
      ∀ m, sinkDelta m (finalizeProfileEvents cat env ts sid).trace = 0 := by
  have hfin : finalizeProfileEvents cat env ts sid = ⟨ts, []⟩ := by
    unfold finalizeProfileEvents
    rw [if_neg h]
  exact ⟨hfin, fun m => by rw [hfin]; rfl⟩

theorem finalize_no_session_reports_zero_witness :
    finalizeProfileEvents raw_events_info envA (initialThread raw_events_info) 0 =
        ⟨initialThread raw_events_info, []⟩ ∧
      ∀ m, sinkDelta m
        (finalizeProfileEvents raw_events_info envA (initialThread raw_events_info) 0).trace = 0 :=
  finalize_no_session_reports_zero raw_events_info envA (initialThread raw_events_info) 0
    (by decide)

/-- C5: `initialize` by a session while a different session is active on
the thread is exactly a logged warning: the process flags, the thread
state (in particular the active session's accumulated values and the
active-session marker) are unchanged, and the trace holds no open,
enable or disable effect. -/
theorem init_other_session_active_noop (cat : List PerfEventInfo) (env : Env)
    (ps : ProcState) (ts : ThreadState) (sid sid' : Nat)
    (h1 : ts.current = some sid') (h2 : sid' ≠ sid) :
    initProfileEvents cat env ps ts sid = ⟨ps, ts, [Effect.logWarning onlyOneMsg]⟩ := by
  unfold initProfileEvents
  rw [h1]
  simp [h2]

theorem init_other_session_active_noop_witness :
    initProfileEvents raw_events_info envA initialProc tsBusy 0 =
      ⟨initialProc, tsBusy, [Effect.logWarning onlyOneMsg]⟩ :=
  init_other_session_active_noop raw_events_info envA initialProc tsBusy 0 1 rfl (by decide)

/-- C2 counterexample: on a thread whose first open-all attempt failed
(the paranoid file was unreadable, so the attempt returned failure
without marking the thread opened), the next call does NOT return
immediately: it re-reads the configuration file, refuting the claim
that the attempt happens exactly once whether it succeeded or failed. -/
theorem openAll_retries_after_failed_attempt :
    (initThreadLocalEvents raw_events_info envFail initialProc
        (initialThread raw_events_info) 0).ok = false ∧
    Effect.readConfig ∈ (initThreadLocalEvents raw_events_info envFail
        (initThreadLocalEvents raw_events_info envFail initialProc
          (initialThread raw_events_info) 0).proc
        (initThreadLocalEvents raw_events_info envFail initialProc
          (initialThread raw_events_info) 0).thread 0).trace := by
  constructor
  · decide
  · decide

/-- C2 amended: only a successful attempt is latched.  After the
open-all operation has succeeded once on a thread (the thread is marked
opened), every later call returns success immediately: no configuration
read, no privilege check, no handle opened, nothing changed. -/
theorem openAll_idempotent_after_success (cat : List PerfEventInfo) (env : Env)
    (ps : ProcState) (ts : ThreadState) (sid : Nat) (h : ts.opened = true) :
    initThreadLocalEvents cat env ps ts sid = ⟨true, ps, ts, []⟩ := by
  unfold initThreadLocalEvents
  simp [h]

theorem openAll_idempotent_after_success_witness :
    initThreadLocalEvents raw_events_info envFail initialProc tsOpened 0 =
      ⟨true, initialProc, tsOpened, []⟩ :=
  openAll_idempotent_after_success raw_events_info envFail initialProc tsOpened 0 rfl

/-- The released holder (all slots `-1`) is a fixed point: releasing it
again touches nothing and emits nothing. -/
theorem releaseHolder_replicate (env : Env) (n : Nat) :
    releaseHolder env (List.replicate n (-1)) = (List.replicate n (-1), []) := by
  induction n with
  | zero => rfl
  | succ k ih => simp [List.replicate_succ, releaseHolder, ih]

/-- C8: thread teardown sets every slot of the holder to `-1`, emits
exactly one close per still-valid descriptor, and a second teardown of
the resulting holder closes nothing and changes nothing (no
double-close). -/
theorem release_closes_once_and_is_idempotent (env : Env) (ds : List Int) :
    (releaseHolder env ds).1 = List.replicate ds.length (-1)
    ∧ countCloses (releaseHolder env ds).2 = countValid ds
    ∧ releaseHolder env (releaseHolder env ds).1 = (List.replicate ds.length (-1), []) := by
  have hmain : (releaseHolder env ds).1 = List.replicate ds.length (-1)
      ∧ countCloses (releaseHolder env ds).2 = countValid ds := by
    induction ds with
    | nil => exact ⟨rfl, rfl⟩
    | cons fd ds ih =>
      unfold releaseHolder
      by_cases h : fd = -1
      · constructor
        · simp [h, List.replicate_succ, ih.1]
        · simpa [h, countValid] using ih.2
      · constructor
        · simp [h, List.replicate_succ, ih.1]
        · cases h1 : env.ioctlDisableOk fd <;> cases h2 : env.closeOk fd <;>
            simp [h, h1, h2, countCloses, countValid, isCloseEffect, List.filter_append,
              ← ih.2, countCloses, Nat.add_comm]
  refine ⟨hmain.1, hmain.2, ?_⟩
  rw [hmain.1]
  exact releaseHolder_replicate env ds.length

end ThreadProfileEvents

namespace ThreadProfileEvents

/-- C6: for any catalog and any `(type, config)` query, `getRawValue`
returns the accumulated value stored at the first catalog index whose
descriptor matches, with no log line; and when no catalog entry
matches it returns `0` together with the logged warning. -/
theorem getRawValue_catalog_lookup (cat : List PerfEventInfo) (vals : List Nat)
    (ty : PerfTypeId) (cfg : Nat) :
    ((∀ e ∈ cat, ¬(e.event_type = ty ∧ e.event_config = cfg)) →
      getRawValue cat vals ty cfg = (0, [Effect.logWarning noInfoMsg]))
    ∧ (∀ i : Nat, i < cat.length →
        ((cat.getD i dummyEvent).event_type = ty ∧ (cat.getD i dummyEvent).event_config = cfg) →
        (∀ j : Nat, j < i →
          ¬((cat.getD j dummyEvent).event_type = ty ∧ (cat.getD j dummyEvent).event_config = cfg)) →
        getRawValue cat vals ty cfg = (vals.getD i 0, [])) := by
  induction cat generalizing vals with
  | nil =>
    refine ⟨fun _ => rfl, fun i hi _ _ => ?_⟩
    exact absurd hi (by simp)
  | cons e es ih =>
    constructor
    · intro hnone
      have he : ¬(e.event_type = ty ∧ e.event_config = cfg) :=
        hnone e (List.mem_cons_self e es)
      have hrest := (ih vals.tail).1 (fun x hx => hnone x (List.mem_cons_of_mem e hx))
      unfold getRawValue
      rw [if_neg he]
      exact hrest
    · intro i hi hmatch hmin
      cases i with
      | zero =>
        have he : e.event_type = ty ∧ e.event_config = cfg := by
          simpa [List.getD] using hmatch
        unfold getRawValue
        rw [if_pos he, headD_eq_getD]
      | succ j =>
        have he : ¬(e.event_type = ty ∧ e.event_config = cfg) := by
          have := hmin 0 (Nat.succ_pos j)
          simpa [List.getD] using this
        have hj : j < es.length := by simpa using hi
        have hmatch' : (es.getD j dummyEvent).event_type = ty ∧
            (es.getD j dummyEvent).event_config = cfg := by
          simpa [List.getD_cons_succ] using hmatch
        have hmin' : ∀ k : Nat, k < j →
            ¬((es.getD k dummyEvent).event_type = ty ∧
              (es.getD k dummyEvent).event_config = cfg) := by
          intro k hk
          have := hmin (k + 1) (Nat.succ_lt_succ hk)
          simpa [List.getD_cons_succ] using this
        have hrest := (ih vals.tail).2 j hj hmatch' hmin'
        unfold getRawValue
        rw [if_neg he, hrest, tail_getD]

theorem getRawValue_catalog_lookup_witness :
    getRawValue raw_events_info [10, 20, 30, 40] .hardware 1 = (20, []) :=
  (getRawValue_catalog_lookup raw_events_info [10, 20, 30, 40] .hardware 1).2 1
    (by decide) (by decide)
    (fun j hj => by
      have hj0 : j = 0 := by omega
      subst hj0
      decide)

/-- Every open effect the open loop emits carries the `exclude_kernel`
bit it was called with, and it emits one open per catalog entry. -/
theorem openLoop_opens (env : Env) (ek logU : Bool) :
    ∀ (cat : List PerfEventInfo) (i0 : Nat),
      countOpens (openLoop env ek logU cat i0).2 = cat.length
      ∧ ∀ i b fd, Effect.openHandle i b fd ∈ (openLoop env ek logU cat i0).2 → b = ek := by
  intro cat
  induction cat with
  | nil => exact fun i0 => ⟨rfl, by intro i b fd h; simp [openLoop] at h⟩
  | cons e es ih =>
    intro i0
    constructor
    · by_cases h : env.openResult ek i0 = -1 ∧ logU = true <;>
        simp [openLoop, h, countOpens, List.filter_append, isOpenEffect,
          ← (ih (i0 + 1)).1, countOpens]
    · intro i b fd hmem
      have hrec := (ih (i0 + 1)).2 i b fd
      by_cases hc : env.openResult ek i0 = -1 ∧ logU = true
      · simp only [openLoop, if_pos hc, List.cons_append, List.singleton_append,
          List.mem_cons] at hmem
        rcases hmem with h1 | h1 | h1
        · injection h1 with hi hb hfd
        · exact Effect.noConfusion h1
        · exact hrec h1
      · simp only [openLoop, if_neg hc, List.cons_append, List.nil_append,
          List.mem_cons] at hmem
        rcases hmem with h1 | h1
        · injection h1 with hi hb hfd
        · exact hrec h1

end ThreadProfileEvents

namespace ThreadProfileEvents

theorem ek_false_iff (p : Int) (c : Bool) :
    ((decide (2 ≤ p) && !c) = false) ↔ (p ≤ 1 ∨ c = true) := by
  cases c
  · simp
    omega
  · simp

theorem countOpens_readConfig (l : List Effect) :
    countOpens (Effect.readConfig :: l) = countOpens l := by
  simp [countOpens, List.filter_cons, isOpenEffect]

theorem countOpens_checkPrivilege (l : List Effect) :
    countOpens (Effect.checkPrivilege :: l) = countOpens l := by
  simp [countOpens, List.filter_cons, isOpenEffect]

/-- C4: on a first activation with a readable restriction level `p`,
the open-all operation refuses collection (returns failure) exactly
when `p` is in the strictest tier (`3 ≤ p`) and the process lacks
`CAP_SYS_ADMIN`; a refusal opens no handle and leaves the thread
unchanged; otherwise one handle is opened per catalog entry, and each
is opened with kernel-context events included (`exclude_kernel =
false`) exactly when `p` is at most the relaxed tier (`p ≤ 1`) or the
privilege is held. -/
theorem first_activation_policy (env : Env) (ps : ProcState) (ts : ThreadState)
    (sid : Nat) (p : Int) (h1 : ts.opened = false) (h2 : env.paranoid = some p) :
    ((initThreadLocalEvents raw_events_info env ps ts sid).ok = false ↔
      (3 ≤ p ∧ env.hasCapSysAdmin = false))
    ∧ ((initThreadLocalEvents raw_events_info env ps ts sid).ok = false →
        (initThreadLocalEvents raw_events_info env ps ts sid).thread = ts ∧
        countOpens (initThreadLocalEvents raw_events_info env ps ts sid).trace = 0)
    ∧ ((initThreadLocalEvents raw_events_info env ps ts sid).ok = true →
        countOpens (initThreadLocalEvents raw_events_info env ps ts sid).trace =
          raw_events_info.length ∧
        ∀ i b fd, Effect.openHandle i b fd ∈
            (initThreadLocalEvents raw_events_info env ps ts sid).trace →
          (b = false ↔ (p ≤ 1 ∨ env.hasCapSysAdmin = true))) := by
  by_cases hc : 3 ≤ p ∧ env.hasCapSysAdmin = false
  · have hok : (initThreadLocalEvents raw_events_info env ps ts sid).ok = false := by
      cases hps : ps.unavailLogged <;>
        simp [initThreadLocalEvents, h1, h2, if_pos hc, hps]
    have hth : (initThreadLocalEvents raw_events_info env ps ts sid).thread = ts := by
      cases hps : ps.unavailLogged <;>
        simp [initThreadLocalEvents, h1, h2, if_pos hc, hps]
    have hcnt : countOpens (initThreadLocalEvents raw_events_info env ps ts sid).trace = 0 := by
      cases hps : ps.unavailLogged <;>
        simp [initThreadLocalEvents, h1, h2, if_pos hc, hps, countOpens, isOpenEffect]
    refine ⟨?_, ?_, ?_⟩
    · simp [hok, hc]
    · exact fun _ => ⟨hth, hcnt⟩
    · intro habs
      rw [hok] at habs
      exact Bool.noConfusion habs
  · have hok : (initThreadLocalEvents raw_events_info env ps ts sid).ok = true := by
      simp [initThreadLocalEvents, h1, h2, if_neg hc]
    have htr : (initThreadLocalEvents raw_events_info env ps ts sid).trace =
        Effect.readConfig :: Effect.checkPrivilege ::
          (openLoop env (decide (2 ≤ p) && !env.hasCapSysAdmin)
            (!ps.particularLogged) raw_events_info 0).2 := by
      simp [initThreadLocalEvents, h1, h2, if_neg hc]
    refine ⟨?_, ?_, ?_⟩
    · simp [hok, hc]
    · intro habs
      rw [hok] at habs
      exact Bool.noConfusion habs
    · intro _
      rw [htr]
      constructor
      · rw [countOpens_readConfig, countOpens_checkPrivilege]
        exact (openLoop_opens env _ _ raw_events_info 0).1
      · intro i b fd hmem
        rcases List.mem_cons.mp hmem with h3 | h3
        · exact Effect.noConfusion h3
        rcases List.mem_cons.mp h3 with h4 | h4
        · exact Effect.noConfusion h4
        have hb := (openLoop_opens env _ _ raw_events_info 0).2 i b fd h4
        rw [hb]
        exact ek_false_iff p env.hasCapSysAdmin

theorem first_activation_policy_witness :
    (initThreadLocalEvents raw_events_info envP3 initialProc
      (initialThread raw_events_info) 0).ok = false :=
  (first_activation_policy envP3 initialProc (initialThread raw_events_info) 0 3
    rfl rfl).1.mpr (by decide)

end ThreadProfileEvents

namespace ThreadProfileEvents

/-- A step by a thread that lost the race (the flag is already set)
emits no "unsupported" line and keeps the flag set. -/
theorem raceStep_flag_true (cat : List PerfEventInfo) (env : Env) (ps : ProcState)
    (fresh : ThreadState) (henv : env.paranoid = none) (hps : ps.unavailLogged = true) :
    countUnavailLogs (initThreadLocalEvents cat env ps fresh 0).trace = 0 ∧
    (initThreadLocalEvents cat env ps fresh 0).proc.unavailLogged = true := by
  unfold initThreadLocalEvents
  rw [henv]
  cases hoo : fresh.opened
  · simp only [Bool.false_eq_true, if_false, hps, if_true]
    exact ⟨rfl, trivial⟩
  · simp only [if_true]
    exact ⟨rfl, hps⟩

/-- A step by the thread that wins the compare-and-set emits exactly one
"unsupported" line and sets the flag. -/
theorem raceStep_flag_false (cat : List PerfEventInfo) (env : Env) (ps : ProcState)
    (fresh : ThreadState) (henv : env.paranoid = none)
    (hfresh : fresh.opened = false) (hps : ps.unavailLogged = false) :
    countUnavailLogs (initThreadLocalEvents cat env ps fresh 0).trace = 1 ∧
    (initThreadLocalEvents cat env ps fresh 0).proc.unavailLogged = true := by
  unfold initThreadLocalEvents
  rw [henv]
  simp only [hfresh, Bool.false_eq_true, if_false, hps]
  exact ⟨rfl, trivial⟩

/-- Once the flag is set, any number of further racing threads emit
nothing more. -/
theorem runRaceFresh_flag_true (cat : List PerfEventInfo) (env : Env)
    (fresh : ThreadState) (henv : env.paranoid = none) :
    ∀ (t : Nat) (ps : ProcState), ps.unavailLogged = true →
      (runRaceFresh cat env fresh t ps).2 = 0 ∧
      (runRaceFresh cat env fresh t ps).1.unavailLogged = true := by
  intro t
  induction t with
  | zero => exact fun ps hps => ⟨rfl, hps⟩
  | succ k ih =>
    intro ps hps
    have hstep := raceStep_flag_true cat env ps fresh henv hps
    have hrest := ih _ hstep.2
    simp [runRaceFresh, hstep.1, hrest.1, hrest.2]

/-- C9: with the atomic compare-and-set serializing the racing threads'
first-use steps, any number `T ≥ 1` of fresh threads hitting the same
first-use failure (unreadable paranoid file) produce exactly one
"unsupported" diagnostic line in total, and the process-wide flag ends
set: the flag transitions false to true exactly once, with no lost
update and no duplicate emission. -/
theorem unavailable_logged_exactly_once (cat : List PerfEventInfo) (env : Env)
    (fresh : ThreadState) (T : Nat) (ps : ProcState)
    (henv : env.paranoid = none) (hfresh : fresh.opened = false)
    (hps : ps.unavailLogged = false) (hT : 1 ≤ T) :
    (runRaceFresh cat env fresh T ps).2 = 1 ∧
    (runRaceFresh cat env fresh T ps).1.unavailLogged = true := by
  obtain ⟨k, rfl⟩ : ∃ k, T = k + 1 := ⟨T - 1, by omega⟩
  have hstep := raceStep_flag_false cat env ps fresh henv hfresh hps
  have hrest := runRaceFresh_flag_true cat env fresh henv k _ hstep.2
  simp [runRaceFresh, hstep.1, hrest.1, hrest.2]

theorem unavailable_logged_exactly_once_witness :
    (runRaceFresh raw_events_info envFail (initialThread raw_events_info) 100 initialProc).2 = 1 ∧
    (runRaceFresh raw_events_info envFail
        (initialThread raw_events_info) 100 initialProc).1.unavailLogged = true :=
  unavailable_logged_exactly_once raw_events_info envFail (initialThread raw_events_info) 100
    initialProc rfl rfl rfl (by decide)

end ThreadProfileEvents

namespace ThreadProfileEvents

/-- C3: at a finalize of the currently active session on an opened
thread, the value forwarded to the sink under the scaled-IPC metric is
the truncating division `instructions / cpu_cycles` of the values read
at finalize when `cpu_cycles ≠ 0`, and exactly `0` when `cpu_cycles =
0`; symmetrically for the unscaled-IPC metric with `ref_cpu_cycles`
(indices taken through `getRawValue` on the post-read value array). -/
theorem finalize_ipc_division_policy (env : Env) (ts : ThreadState) (sid : Nat)
    (h1 : ts.current = some sid) (h2 : ts.opened = true) :
    (sinkDelta .ipcScaled (finalizeProfileEvents raw_events_info env ts sid).trace =
      (if (getRawValue raw_events_info
            (readLoop env ts.descriptors (ts.sessions sid)).1 .hardware 0).1 = 0
       then 0
       else (getRawValue raw_events_info
              (readLoop env ts.descriptors (ts.sessions sid)).1 .hardware 1).1 /
            (getRawValue raw_events_info
              (readLoop env ts.descriptors (ts.sessions sid)).1 .hardware 0).1))
    ∧ (sinkDelta .ipcUnscaled (finalizeProfileEvents raw_events_info env ts sid).trace =
      (if (getRawValue raw_events_info
            (readLoop env ts.descriptors (ts.sessions sid)).1 .hardware 9).1 = 0
       then 0
       else (getRawValue raw_events_info
              (readLoop env ts.descriptors (ts.sessions sid)).1 .hardware 1).1 /
            (getRawValue raw_events_info
              (readLoop env ts.descriptors (ts.sessions sid)).1 .hardware 9).1)) := by
  have hp1 : ∀ (ds : List Int) (vs : List Nat),
      sinkDelta .ipcScaled (processLoop env ds vs raw_events_info) = 0 :=
    fun ds vs => processLoop_sinkDelta_of_not_reported .ipcScaled env raw_events_info ds vs
      (by decide)
  have hp2 : ∀ (ds : List Int) (vs : List Nat),
      sinkDelta .ipcUnscaled (processLoop env ds vs raw_events_info) = 0 :=
    fun ds vs => processLoop_sinkDelta_of_not_reported .ipcUnscaled env raw_events_info ds vs
      (by decide)
  by_cases hg1 : (getRawValue raw_events_info
      (readLoop env ts.descriptors (ts.sessions sid)).1 .hardware 0).1 = 0 <;>
  by_cases hg9 : (getRawValue raw_events_info
      (readLoop env ts.descriptors (ts.sessions sid)).1 .hardware 9).1 = 0 <;>
    constructor <;>
    simp [finalizeProfileEvents, h1, h2, hg1, hg9, sinkDelta_append, sinkDelta_cons,
      sinkDelta_nil, readLoop_sinkDelta, getRawValue_sinkDelta, incValue, hp1, hp2]

end ThreadProfileEvents

namespace ThreadProfileEvents

theorem finalize_ipc_division_policy_witness :
    (sinkDelta .ipcScaled (finalizeProfileEvents raw_events_info env7 ts3 0).trace =
      (if (getRawValue raw_events_info
            (readLoop env7 ts3.descriptors (ts3.sessions 0)).1 .hardware 0).1 = 0
       then 0
       else (getRawValue raw_events_info
              (readLoop env7 ts3.descriptors (ts3.sessions 0)).1 .hardware 1).1 /
            (getRawValue raw_events_info
              (readLoop env7 ts3.descriptors (ts3.sessions 0)).1 .hardware 0).1))
    ∧ (sinkDelta .ipcUnscaled (finalizeProfileEvents raw_events_info env7 ts3 0).trace =
      (if (getRawValue raw_events_info
            (readLoop env7 ts3.descriptors (ts3.sessions 0)).1 .hardware 9).1 = 0
       then 0
       else (getRawValue raw_events_info
              (readLoop env7 ts3.descriptors (ts3.sessions 0)).1 .hardware 1).1 /
            (getRawValue raw_events_info
              (readLoop env7 ts3.descriptors (ts3.sessions 0)).1 .hardware 9).1)) :=
  finalize_ipc_division_policy env7 ts3 0 rfl rfl

/-- C7 counterexample: in the spec's no-op-region scenario (catalog =
{cpu_cycles, instructions}, synthetic handles yielding 1000 and 500,
`initialize` immediately followed by `finalize`), the sink increments
are NOT exactly the claimed three `(cpu_cycles, 1000)`,
`(instructions, 500)`, `(ipc_scaled, 0)`: the code also always
forwards the unscaled-IPC metric. -/
theorem noop_region_increments_ne_claimed :
    sinkIncrements (finalizeProfileEvents cat2 env7
        (initProfileEvents cat2 env7 initialProc ts7 0).thread 0).trace ≠
      [(MetricId.PERF_COUNT_HW_CPU_CYCLES, 1000),
       (MetricId.PERF_COUNT_HW_INSTRUCTIONS, 500),
       (MetricId.ipcScaled, 0)] := by
  decide

/-- C7 amended: the no-op region reports exactly the injected counts
plus the two derived IPC metrics and nothing else: `(cpu_cycles,
1000)`, `(instructions, 500)`, `(ipc_scaled, 0)` (truncating `500 /
1000`) and `(ipc_unscaled, 0)`. -/
theorem noop_region_increments_exact :
    sinkIncrements (finalizeProfileEvents cat2 env7
        (initProfileEvents cat2 env7 initialProc ts7 0).thread 0).trace =
      [(MetricId.PERF_COUNT_HW_CPU_CYCLES, 1000),
       (MetricId.PERF_COUNT_HW_INSTRUCTIONS, 500),
       (MetricId.ipcScaled, 0),
       (MetricId.ipcUnscaled, 0)] := by
  decide

end ThreadProfileEvents

namespace ThreadProfileEvents

/-- The open-all operation never changes `current_thread_counters`. -/
theorem initTLE_current_eq (cat : List PerfEventInfo) (env : Env) (ps : ProcState)
    (ts : ThreadState) (sid : Nat) :
    (initThreadLocalEvents cat env ps ts sid).thread.current = ts.current := by
  cases hpar : env.paranoid <;>
    (simp only [initThreadLocalEvents, hpar]; split_ifs <;> rfl)

/-- If the open-all operation reports success, the thread is marked
opened afterwards. -/
theorem initTLE_opened_of_ok (cat : List PerfEventInfo) (env : Env) (ps : ProcState)
    (ts : ThreadState) (sid : Nat)
    (h : (initThreadLocalEvents cat env ps ts sid).ok = true) :
    (initThreadLocalEvents cat env ps ts sid).thread.opened = true := by
  revert h
  cases hpar : env.paranoid <;>
    (simp only [initThreadLocalEvents, hpar]; split_ifs with h1 h2 <;> intro h <;>
      first
        | assumption
        | rfl
        | exact h.elim)

/-- `initialize` preserves the C10 invariant. -/
theorem initProfileEvents_invOpened (cat : List PerfEventInfo) (env : Env)
    (ps : ProcState) (ts : ThreadState) (sid : Nat) (h : invOpened ts) :
    invOpened (initProfileEvents cat env ps ts sid).thread := by
  unfold initProfileEvents
  cases hcur : ts.current with
  | some s =>
    by_cases hs : s = sid <;> simp only [hs, if_true, if_false] <;>
      (intro _; exact h (by simp [hcur]))
  | none =>
    by_cases hok : (initThreadLocalEvents cat env ps ts sid).ok = false
    · simp only [hok, if_true]
      intro hsome
      rw [initTLE_current_eq] at hsome
      rw [hcur] at hsome
      exact Bool.noConfusion hsome
    · simp only [hok, if_false]
      intro _
      exact initTLE_opened_of_ok cat env ps ts sid (by
        revert hok
        cases (initThreadLocalEvents cat env ps ts sid).ok <;> simp)

/-- `finalize` preserves the C10 invariant. -/
theorem finalize_invOpened (cat : List PerfEventInfo) (env : Env)
    (ts : ThreadState) (sid : Nat) (h : invOpened ts) :
    invOpened (finalizeProfileEvents cat env ts sid).thread := by
  unfold finalizeProfileEvents
  split_ifs with h1 h2
  · intro hsome
    exact Bool.noConfusion hsome
  · exact h
  · exact h

theorem stepOp_invOpened (cat : List PerfEventInfo) (s : ProcState × ThreadState)
    (op : Op) (h : invOpened s.2) : invOpened (stepOp cat s op).2 := by
  rcases s with ⟨ps, ts⟩
  cases op with
  | opInit sid env => exact initProfileEvents_invOpened cat env ps ts sid h
  | opFin sid env => exact finalize_invOpened cat env ts sid h

theorem foldl_invOpened (cat : List PerfEventInfo) (ops : List Op) :
    ∀ s, invOpened s.2 → invOpened ((ops.foldl (stepOp cat) s)).2 := by
  induction ops with
  | nil => exact fun _ h => h
  | cons op ops ih => exact fun s h => ih _ (stepOp_invOpened cat s op h)

/-- C10: after any sequence of operations from the initial state,
whenever the active-session slot is non-null the handle-opening flag is
set; hence a `finalize` of the currently active session never hits the
descriptors-not-opened early return — it always reaches the reporting
code (the sink receives increments) and clears the active-session
marker. -/
theorem active_session_implies_opened (cat : List PerfEventInfo) (ops : List Op)
    (sid : Nat) (env : Env) (h : (runOps cat ops).2.current = some sid) :
    (runOps cat ops).2.opened = true
    ∧ (finalizeProfileEvents cat env (runOps cat ops).2 sid).thread.current = none
    ∧ sinkIncrements (finalizeProfileEvents cat env (runOps cat ops).2 sid).trace ≠ [] := by
  have hinv : invOpened (runOps cat ops).2 := by
    unfold runOps
    exact foldl_invOpened cat ops _ (by
      intro hsome
      exact Bool.noConfusion hsome)
  have hop : (runOps cat ops).2.opened = true := hinv (by rw [h]; rfl)
  refine ⟨hop, ?_, ?_⟩
  · simp [finalizeProfileEvents, h, hop]
  · simp [finalizeProfileEvents, h, hop, sinkIncrements_append, sinkIncrements]

theorem active_session_implies_opened_witness :
    (runOps raw_events_info [Op.opInit 0 envA]).2.opened = true
    ∧ (finalizeProfileEvents raw_events_info envA
        (runOps raw_events_info [Op.opInit 0 envA]).2 0).thread.current = none
    ∧ sinkIncrements (finalizeProfileEvents raw_events_info envA
        (runOps raw_events_info [Op.opInit 0 envA]).2 0).trace ≠ [] :=
  active_session_implies_opened raw_events_info [Op.opInit 0 envA] 0 envA (by decide)

end ThreadProfileEvents
